import Mathlib

/-!
Verification of the todo-app core (task manager + JSON storage).

Shallow embedding of `src/todo_manager.py` and `src/storage.py`.
Python strings are modelled as `List Char`; timestamps (`datetime.now()`)
as abstract `Nat` values supplied by the caller; the filesystem seen by
`JSONStorage` as an explicit state. The `Task` entity lives in `models.py`,
which is not part of the available sources; it is modelled from the spec
where noted.
-/

set_option autoImplicit false
set_option maxRecDepth 10000

namespace TodoApp

/-- Strings of the source program, modelled as lists of characters so that
trimming and length checks are directly computable. -/
abbrev Str := List Char

/-- Whitespace test used for trimming, as in `str.strip()` restricted to
the common ASCII whitespace characters. -/
def isWS (c : Char) : Bool :=
  c = ' ' || c = '\t' || c = '\n' || c = '\r'

/-- Trimming of surrounding whitespace, as performed by `str.strip()`. -/
def trim (s : Str) : Str :=
  ((s.dropWhile isWS).reverse.dropWhile isWS).reverse

/-- The Task entity (`models.py`, not among the available sources).
Field names follow the spec data model of section 3. -/
structure Task where
  id : Nat
  title : Str
  description : Str
  completed : Bool
  created_at : Nat
  deriving Repr, DecidableEq

/-- Modelled from the spec: `models.py` is missing from the sources, and with
it the validation the `add_task` docstring attributes to Task construction.
Spec section 3: title must be non-empty and 1-200 characters after trimming
surrounding whitespace; description at most 1000 characters. The error
identifies the violated constraint. -/
inductive ValidationError where
  | emptyTitle
  | titleTooLong
  | descriptionTooLong
  deriving Repr, DecidableEq

/-- Modelled from the spec: validation performed when a Task is constructed
(`models.py` is missing from the sources); checks the constraints of spec
section 3 in the order the spec lists them. -/
def validateTask (title description : Str) : Option ValidationError :=
  if (trim title).length = 0 then some .emptyTitle
  else if (trim title).length > 200 then some .titleTooLong
  else if description.length > 1000 then some .descriptionTooLong
  else none

/-- Modelled from the spec: validated Task construction (`models.py` is
missing from the sources); fails with a `ValidationError` on a violated
constraint and otherwise builds the task with the given fields. -/
def Task.mk_validated (id : Nat) (title description : Str) (completed : Bool)
    (created_at : Nat) : Except ValidationError Task :=
  match validateTask title description with
  | some e => .error e
  | none => .ok ⟨id, title, description, completed, created_at⟩

/-- Modelled from the spec: the plain key-value record produced by the
entity's `to_dict` (`models.py` is missing from the sources). Spec section
4.1: `description` and `completed` may be absent from older records and
then default; the timestamp is serialized losslessly (modelled as the
abstract value itself). -/
structure TaskRecord where
  id : Nat
  title : Str
  description : Option Str
  completed : Option Bool
  created_at : Nat
  deriving Repr, DecidableEq

/-- Modelled from the spec: `Task.to_dict`, the lossless conversion of a
task to a plain record (`models.py` is missing from the sources). -/
def Task.to_dict (t : Task) : TaskRecord :=
  ⟨t.id, t.title, some t.description, some t.completed, t.created_at⟩

/-- Modelled from the spec: `Task.from_dict`, reconstruction from a record
(`models.py` is missing from the sources); a missing `description` defaults
to the empty string and a missing `completed` to false. -/
def Task.from_dict (r : TaskRecord) : Task :=
  ⟨r.id, r.title, r.description.getD [], r.completed.getD false, r.created_at⟩

/-- The structured document written by `JSONStorage.save`
(`storage.py` lines 67-70): the serialized task records and the counter. -/
structure StoreDoc where
  tasks : List TaskRecord
  next_id : Nat
  deriving Repr, DecidableEq

/-- What `JSONStorage.load` can find at the target path: no file, a file
that fails to parse (or any other read error), or a parsed JSON object in
which the task list and the counter may each be absent
(`storage.py` lines 100-117). -/
inductive FileContent where
  | missing
  | corrupt
  | parsed (tasks : Option (List TaskRecord)) (next_id : Option Nat)
  deriving Repr, DecidableEq

/-- Result of `JSONStorage.load` (`storage.py` lines 81-117). -/
structure LoadResult where
  tasks : List Task
  next_id : Nat
  deriving Repr, DecidableEq

/-- Embedding of `JSONStorage.load` (`storage.py` lines 100-117): a missing
file yields the empty default state; a parse failure or other read error is
caught and yields the same; otherwise `data.get` supplies the defaults
`[]` for the task list and `1` for the counter. -/
def JSONStorage.load (file : FileContent) : LoadResult :=
  match file with
  | .missing => ⟨[], 1⟩
  | .corrupt => ⟨[], 1⟩
  | .parsed tasks? next_id? => ⟨(tasks?.getD []).map Task.from_dict, next_id?.getD 1⟩

/-- The filesystem as seen by `JSONStorage.save`: the content at the target
path and at the sibling backup path, each possibly absent. -/
structure FS where
  target : Option StoreDoc
  backup : Option StoreDoc
  deriving Repr, DecidableEq

/-- Embedding of `JSONStorage.save` (`storage.py` lines 60-76), the
successful path: if a file exists at the target it is first copied to the
backup path, then the serialized document is written to the target;
returns true. -/
def JSONStorage.save (fs : FS) (tasks : List Task) (next_id : Nat) : Bool × FS :=
  let fs1 : FS :=
    match fs.target with
    | some content => ⟨fs.target, some content⟩
    | none => fs
  let doc : StoreDoc := ⟨tasks.map Task.to_dict, next_id⟩
  (true, ⟨some doc, fs1.backup⟩)

/-- State of a `TodoManager` (`todo_manager.py` lines 40-42), together with
the log of states handed to `_save_to_storage` so that persistence calls
are observable. -/
structure TodoManager where
  tasks : List Task
  next_id : Nat
  saves : List (List Task × Nat)
  deriving Repr, DecidableEq

/-- Linear lookup of the first task with the given id, the loop of
`TodoManager.get_task_by_id` (`todo_manager.py` lines 119-122). -/
def findTask (tasks : List Task) (task_id : Nat) : Option Task :=
  match tasks with
  | [] => none
  | t :: rest => if t.id = task_id then some t else findTask rest task_id

/-- Embedding of `TodoManager.get_task_by_id` (`todo_manager.py`
lines 109-122). -/
def TodoManager.get_task_by_id (m : TodoManager) (task_id : Nat) : Option Task :=
  findTask m.tasks task_id

/-- Embedding of `TodoManager.add_task` (`todo_manager.py` lines 72-98):
constructs the task (which validates, see `Task.mk_validated`) with the
current counter as id and the current time as `created_at`; on success
appends it, increments the counter by one and persists. A raised
`ValidationError` propagates before any mutation. `now` stands for
`datetime.now()`. -/
def TodoManager.add_task (m : TodoManager) (title : Str) (description : Str)
    (now : Nat) : Except ValidationError (Task × TodoManager) :=
  match Task.mk_validated m.next_id title description false now with
  | .error e => .error e
  | .ok new_task =>
    let tasks := m.tasks ++ [new_task]
    let next_id := m.next_id + 1
    .ok (new_task, ⟨tasks, next_id, m.saves ++ [(tasks, next_id)]⟩)

/-- Removal of the first task with the given id: `self.tasks.remove(task)`
in `TodoManager.delete_task` (`todo_manager.py` line 171) removes the first
element equal to the task found by `get_task_by_id`; elements before the
first id match differ in id from it, so the element removed is exactly the
first one whose id matches. -/
def removeFirstById (tasks : List Task) (task_id : Nat) : List Task :=
  match tasks with
  | [] => []
  | t :: rest => if t.id = task_id then rest else t :: removeFirstById rest task_id

/-- Embedding of `TodoManager.delete_task` (`todo_manager.py`
lines 157-174): returns false on an absent id, otherwise removes the task
and persists. -/
def TodoManager.delete_task (m : TodoManager) (task_id : Nat) : Bool × TodoManager :=
  match findTask m.tasks task_id with
  | none => (false, m)
  | some _ =>
    let tasks := removeFirstById m.tasks task_id
    (true, ⟨tasks, m.next_id, m.saves ++ [(tasks, m.next_id)]⟩)

/-- Replacement of the first task with the given id by `updated`:
`self.tasks[index] = updated_task` where `index = self.tasks.index(task)`
(`todo_manager.py` lines 151-152) and `task` is the first task whose id
matches, so `index` is the position of that first match. -/
def replaceFirstById (tasks : List Task) (task_id : Nat) (updated : Task) : List Task :=
  match tasks with
  | [] => []
  | t :: rest =>
    if t.id = task_id then updated :: rest
    else t :: replaceFirstById rest task_id updated

/-- Embedding of `TodoManager.update_task` (`todo_manager.py`
lines 124-155): `None` (here `Option.none`) is the no-change sentinel for
`title` and `description`; the replacement task keeps id, `created_at` and
`completed`, is stored back at the task's position, and the state is
persisted. -/
def TodoManager.update_task (m : TodoManager) (task_id : Nat)
    (title : Option Str) (description : Option Str) : Bool × TodoManager :=
  match findTask m.tasks task_id with
  | none => (false, m)
  | some task =>
    let new_title := match title with | some s => s | none => task.title
    let new_description := match description with | some s => s | none => task.description
    let updated_task : Task :=
      ⟨task.id, new_title, new_description, task.completed, task.created_at⟩
    let tasks := replaceFirstById m.tasks task_id updated_task
    (true, ⟨tasks, m.next_id, m.saves ++ [(tasks, m.next_id)]⟩)

/-- In-place flip of `completed` on the first task with the given id:
`task.completed = not task.completed` in `TodoManager.toggle_complete`
(`todo_manager.py` line 190) mutates the object returned by
`get_task_by_id`, which is the first task whose id matches. -/
def toggleFirstById (tasks : List Task) (task_id : Nat) : List Task :=
  match tasks with
  | [] => []
  | t :: rest =>
    if t.id = task_id then ⟨t.id, t.title, t.description, !t.completed, t.created_at⟩ :: rest
    else t :: toggleFirstById rest task_id

/-- Embedding of `TodoManager.toggle_complete` (`todo_manager.py`
lines 176-193): returns false on an absent id, otherwise flips `completed`
in place and persists. -/
def TodoManager.toggle_complete (m : TodoManager) (task_id : Nat) : Bool × TodoManager :=
  match findTask m.tasks task_id with
  | none => (false, m)
  | some _ =>
    let tasks := toggleFirstById m.tasks task_id
    (true, ⟨tasks, m.next_id, m.saves ++ [(tasks, m.next_id)]⟩)

/-- Result record of `TodoManager.get_stats` (`todo_manager.py`
lines 205-209). -/
structure Stats where
  total : Nat
  completed : Nat
  pending : Nat
  deriving Repr, DecidableEq

/-- Embedding of `TodoManager.get_stats` (`todo_manager.py`
lines 195-209). -/
def TodoManager.get_stats (m : TodoManager) : Stats :=
  let total := m.tasks.length
  let completed := m.tasks.countP (fun t => t.completed)
  let pending := total - completed
  ⟨total, completed, pending⟩

/-- The state a fresh manager starts from when nothing is persisted
(`todo_manager.py` lines 41-42, `storage.py` line 101). -/
def emptyManager : TodoManager := ⟨[], 1, []⟩

/-- Operations of the add/delete traces that claim C2 quantifies over. -/
inductive Op where
  | add (title description : Str) (now : Nat)
  | del (task_id : Nat)
  deriving Repr, DecidableEq

/-- One step of a trace: a failed add leaves the manager unchanged (the
exception propagates to the caller); a delete keeps the state the call
returns. -/
def applyOp (m : TodoManager) (op : Op) : TodoManager :=
  match op with
  | .add title description now =>
    match m.add_task title description now with
    | .error _ => m
    | .ok (_, m2) => m2
  | .del task_id => (m.delete_task task_id).2

/-- Running a trace from the empty first-run state. -/
def runOps (ops : List Op) : TodoManager :=
  ops.foldl applyOp emptyManager

/-- An add operation that passes validation; since validation depends only
on the arguments, these are exactly the adds that succeed. -/
def isValidAdd (op : Op) : Bool :=
  match op with
  | .add title description _ => (validateTask title description).isNone
  | .del _ => false

/-- Number of successful adds in a trace. -/
def countValidAdds (ops : List Op) : Nat :=
  ops.countP isValidAdd

/-- A one-task manager used to instantiate the theorems below. -/
def mgr1 : TodoManager := ⟨[⟨1, ['a'], [], false, 0⟩], 2, []⟩

/-! Helper lemmas shared by the claim theorems. -/

/-- If no task in the list carries the id, the linear search fails. -/
theorem findTask_eq_none {l : List Task} {i : Nat} (h : ∀ t ∈ l, t.id ≠ i) :
    findTask l i = none := by
  induction l with
  | nil => rfl
  | cons a rest ih =>
    have ha : a.id ≠ i := h a (by simp)
    simp only [findTask, if_neg ha]
    exact ih fun t ht => h t (by simp [ht])

/-- Combined positional description of the first-id-match operations: the
task found by `findTask` sits at an index `idx`; replacing resp. toggling
rewrites exactly position `idx` and leaves every other position as it was. -/
theorem firstById_spec {l : List Task} {i : Nat} (h : ∃ t ∈ l, t.id = i) :
    ∃ (idx : Nat) (t : Task), findTask l i = some t ∧ l[idx]? = some t ∧ t.id = i ∧
      (∀ u : Task, (replaceFirstById l i u)[idx]? = some u ∧
        ∀ j : Nat, j ≠ idx → (replaceFirstById l i u)[j]? = l[j]?) ∧
      (toggleFirstById l i)[idx]? =
        some (⟨t.id, t.title, t.description, !t.completed, t.created_at⟩ : Task) ∧
      (∀ j : Nat, j ≠ idx → (toggleFirstById l i)[j]? = l[j]?) := by
  induction l with
  | nil => simp at h
  | cons a rest ih =>
    by_cases ha : a.id = i
    · refine ⟨0, a, by simp [findTask, ha], by simp, ha, ?_, ?_, ?_⟩
      · intro u
        refine ⟨by simp [replaceFirstById, ha], ?_⟩
        intro j hj
        match j with
        | 0 => exact absurd rfl hj
        | k + 1 => simp [replaceFirstById, ha]
      · simp [toggleFirstById, ha]
      · intro j hj
        match j with
        | 0 => exact absurd rfl hj
        | k + 1 => simp [toggleFirstById, ha]
    · have h' : ∃ t ∈ rest, t.id = i := by
        rcases h with ⟨t, ht, hid⟩
        rcases List.mem_cons.mp ht with rfl | hmem
        · exact absurd hid ha
        · exact ⟨t, hmem, hid⟩
      rcases ih h' with ⟨idx, t, hfind, hget, hid, hrep, htog, htogf⟩
      refine ⟨idx + 1, t, by simp [findTask, ha, hfind], by simpa using hget, hid, ?_, ?_, ?_⟩
      · intro u
        refine ⟨by simpa [replaceFirstById, ha] using (hrep u).1, ?_⟩
        intro j hj
        match j with
        | 0 => simp [replaceFirstById, ha]
        | k + 1 =>
          have hk : k ≠ idx := fun hEq => hj (by rw [hEq])
          simpa [replaceFirstById, ha] using (hrep u).2 k hk
      · simpa [toggleFirstById, ha] using htog
      · intro j hj
        match j with
        | 0 => simp [toggleFirstById, ha]
        | k + 1 =>
          have hk : k ≠ idx := fun hEq => hj (by rw [hEq])
          simpa [toggleFirstById, ha] using htogf k hk

/-- Toggling the same id twice restores the original list. -/
theorem toggleFirstById_toggleFirstById (l : List Task) (i : Nat) :
    toggleFirstById (toggleFirstById l i) i = l := by
  induction l with
  | nil => rfl
  | cons a rest ih =>
    by_cases ha : a.id = i
    · obtain ⟨aid, atitle, adesc, acomp, acreated⟩ := a
      simp only [Task.id] at ha
      subst ha
      simp [toggleFirstById]
    · simp [toggleFirstById, ha, ih]

/-- Toggling preserves the searchability of the id. -/
theorem findTask_toggleFirstById_isSome {l : List Task} {i : Nat}
    (h : (findTask l i).isSome) : (findTask (toggleFirstById l i) i).isSome := by
  induction l with
  | nil => simp [findTask] at h
  | cons a rest ih =>
    by_cases ha : a.id = i
    · simp [toggleFirstById, findTask, ha]
    · simp only [toggleFirstById, if_neg ha, findTask] at h ⊢
      exact ih h

/-- Characterization of a successful add: validation passed and the result
appends the new task and bumps the counter. -/
theorem add_task_ok (m : TodoManager) (title description : Str) (now : Nat)
    (h : validateTask title description = none) :
    m.add_task title description now =
      .ok (⟨m.next_id, title, description, false, now⟩,
        ⟨m.tasks ++ [⟨m.next_id, title, description, false, now⟩], m.next_id + 1,
          m.saves ++
            [(m.tasks ++ [⟨m.next_id, title, description, false, now⟩], m.next_id + 1)]⟩) := by
  simp [TodoManager.add_task, Task.mk_validated, h]

/-- A failed validation makes the add raise before touching the state. -/
theorem add_task_error (m : TodoManager) (title description : Str) (now : Nat)
    (e : ValidationError) (h : validateTask title description = some e) :
    m.add_task title description now = .error e := by
  simp [TodoManager.add_task, Task.mk_validated, h]

/-- Deletion never changes the counter. -/
theorem delete_task_next_id (m : TodoManager) (i : Nat) :
    ((m.delete_task i).2).next_id = m.next_id := by
  cases h : findTask m.tasks i with
  | none => simp [TodoManager.delete_task, h]
  | some t => simp [TodoManager.delete_task, h]

/-- Any member of the list after removal was a member before. -/
theorem removeFirstById_mem {l : List Task} {i : Nat} {t : Task}
    (h : t ∈ removeFirstById l i) : t ∈ l := by
  induction l with
  | nil => simp [removeFirstById] at h
  | cons a rest ih =>
    by_cases ha : a.id = i
    · simp only [removeFirstById, if_pos ha] at h
      exact List.mem_cons_of_mem a h
    · simp only [removeFirstById, if_neg ha] at h
      rcases List.mem_cons.mp h with rfl | hmem
      · exact List.mem_cons_self t rest
      · exact List.mem_cons_of_mem a (ih hmem)

/-- Effect of one trace step on the counter. -/
theorem applyOp_next_id (m : TodoManager) (op : Op) :
    (applyOp m op).next_id = m.next_id + (if isValidAdd op then 1 else 0) := by
  cases op with
  | add title description now =>
    cases h : validateTask title description with
    | none => simp [applyOp, add_task_ok m title description now h, isValidAdd, h]
    | some e => simp [applyOp, add_task_error m title description now e h, isValidAdd, h]
  | del i => simp [applyOp, delete_task_next_id, isValidAdd]

/-- Counter after a whole trace, from any start state. -/
theorem foldl_next_id (ops : List Op) : ∀ m : TodoManager,
    (ops.foldl applyOp m).next_id = m.next_id + countValidAdds ops := by
  induction ops with
  | nil => intro m; simp [countValidAdds]
  | cons op rest ih =>
    intro m
    rw [List.foldl_cons, ih, applyOp_next_id]
    simp only [countValidAdds, List.countP_cons]
    by_cases h : isValidAdd op
    · simp only [h, if_true]
      omega
    · simp [h]

/-- Invariant: every stored id is below the counter. -/
def idsBounded (m : TodoManager) : Prop :=
  ∀ t ∈ m.tasks, t.id < m.next_id

/-- One trace step preserves the id bound. -/
theorem applyOp_idsBounded {m : TodoManager} (h : idsBounded m) (op : Op) :
    idsBounded (applyOp m op) := by
  cases op with
  | add title description now =>
    cases hv : validateTask title description with
    | some e =>
      simpa [applyOp, add_task_error m title description now e hv] using h
    | none =>
      have hstep : applyOp m (.add title description now) =
          ⟨m.tasks ++ [⟨m.next_id, title, description, false, now⟩], m.next_id + 1,
            m.saves ++
              [(m.tasks ++ [⟨m.next_id, title, description, false, now⟩],
                m.next_id + 1)]⟩ := by
        simp [applyOp, add_task_ok m title description now hv]
      rw [hstep]
      intro t ht
      rcases List.mem_append.mp ht with hmem | hnew
      · exact Nat.lt_succ_of_lt (h t hmem)
      · simp only [List.mem_singleton] at hnew
        subst hnew
        exact Nat.lt_succ_self _
  | del i =>
    cases hf : findTask m.tasks i with
    | none =>
      have hstep : applyOp m (.del i) = m := by
        simp [applyOp, TodoManager.delete_task, hf]
      rw [hstep]
      exact h
    | some u =>
      have hstep : applyOp m (.del i) =
          ⟨removeFirstById m.tasks i, m.next_id,
            m.saves ++ [(removeFirstById m.tasks i, m.next_id)]⟩ := by
        simp [applyOp, TodoManager.delete_task, hf]
      rw [hstep]
      intro t ht
      exact h t (removeFirstById_mem ht)

/-- Every state reached by an add/delete trace satisfies the id bound. -/
theorem runOps_idsBounded (ops : List Op) : idsBounded (runOps ops) := by
  have step : ∀ m : TodoManager, idsBounded m → idsBounded (ops.foldl applyOp m) := by
    induction ops with
    | nil => intro m hm; simpa using hm
    | cons op rest ih =>
      intro m hm
      rw [List.foldl_cons]
      exact ih _ (applyOp_idsBounded hm op)
  exact step emptyManager (by intro t ht; simp [emptyManager] at ht)

/-! Claim theorems. -/

/-- Claim C1: `add_task` fails with a `ValidationError` identifying the
violated constraint — and performs no mutation, the error being raised by
Task construction before the sequence or the counter is touched — whenever
the trimmed title is empty, the title exceeds 200 characters, or the
description exceeds 1000 characters; at the boundary, a title of length
200 is accepted and 201 rejected, a whitespace-only title is rejected, and
a description of length 1000 is accepted and 1001 rejected. -/
theorem add_task_validation :
    (∀ (m : TodoManager) (title description : Str) (now : Nat),
      (trim title).length = 0 →
      m.add_task title description now = .error .emptyTitle) ∧
    (∀ (m : TodoManager) (title description : Str) (now : Nat),
      (trim title).length > 200 →
      m.add_task title description now = .error .titleTooLong) ∧
    (∀ (m : TodoManager) (title description : Str) (now : Nat),
      (trim title).length ≠ 0 → (trim title).length ≤ 200 → description.length > 1000 →
      m.add_task title description now = .error .descriptionTooLong) ∧
    (∀ (m : TodoManager) (title description : Str) (now : Nat),
      (validateTask title description).isSome →
      applyOp m (.add title description now) = m) ∧
    (∀ (m : TodoManager) (now : Nat),
      ∃ r, m.add_task (List.replicate 200 'a') [] now = .ok r) ∧
    (∀ (m : TodoManager) (now : Nat),
      m.add_task (List.replicate 201 'a') [] now = .error .titleTooLong) ∧
    (∀ (m : TodoManager) (now : Nat),
      m.add_task [' ', ' ', ' '] [] now = .error .emptyTitle) ∧
    (∀ (m : TodoManager) (now : Nat),
      ∃ r, m.add_task ['a'] (List.replicate 1000 'b') now = .ok r) ∧
    (∀ (m : TodoManager) (now : Nat),
      m.add_task ['a'] (List.replicate 1001 'b') now = .error .descriptionTooLong) := by
  refine ⟨?_, ?_, ?_, ?_, ?_, ?_, ?_, ?_, ?_⟩
  · intro m title description now h
    exact add_task_error m title description now _ (by simp [validateTask, h])
  · intro m title description now h
    have h0 : ¬ (trim title).length = 0 := by omega
    exact add_task_error m title description now _ (by simp [validateTask, h0, h])
  · intro m title description now h0 h200 h1000
    have h200' : ¬ (trim title).length > 200 := by omega
    exact add_task_error m title description now _ (by simp [validateTask, h0, h200', h1000])
  · intro m title description now h
    rcases Option.isSome_iff_exists.mp h with ⟨e, he⟩
    simp [applyOp, add_task_error m title description now e he]
  · intro m now
    have hv : validateTask (List.replicate 200 'a') [] = none := by decide
    exact ⟨_, add_task_ok m (List.replicate 200 'a') [] now hv⟩
  · intro m now
    exact add_task_error m (List.replicate 201 'a') [] now _ (by decide)
  · intro m now
    exact add_task_error m [' ', ' ', ' '] [] now _ (by decide)
  · intro m now
    have hv : validateTask ['a'] (List.replicate 1000 'b') = none := by decide
    exact ⟨_, add_task_ok m ['a'] (List.replicate 1000 'b') now hv⟩
  · intro m now
    exact add_task_error m ['a'] (List.replicate 1001 'b') now _ (by decide)

/-- Witness for C1 at a concrete input: a whitespace-only title is
rejected as an empty title. -/
theorem add_task_validation_witness :
    emptyManager.add_task [' ', ' ', ' '] [] 0 = .error .emptyTitle :=
  add_task_validation.2.2.2.2.2.2.1 emptyManager 0

/-- Claim C2: from the empty state, after any add/delete trace the counter
equals the number of successful adds plus one; a successful add assigns the
current counter as id and increments the counter by exactly one; deletes
never change the counter; and every stored id stays below the counter, so
an id handed out once is never assigned again, even after deletion. -/
theorem id_monotonicity :
    (∀ ops : List Op, (runOps ops).next_id = countValidAdds ops + 1) ∧
    (∀ (m : TodoManager) (title description : Str) (now : Nat) (task : Task)
      (m' : TodoManager),
      m.add_task title description now = .ok (task, m') →
      task.id = m.next_id ∧ m'.next_id = m.next_id + 1 ∧ m'.tasks = m.tasks ++ [task]) ∧
    (∀ (m : TodoManager) (task_id : Nat), ((m.delete_task task_id).2).next_id = m.next_id) ∧
    (∀ ops : List Op, ∀ t ∈ (runOps ops).tasks, t.id < (runOps ops).next_id) := by
  refine ⟨?_, ?_, delete_task_next_id, runOps_idsBounded⟩
  · intro ops
    rw [runOps, foldl_next_id]
    simp [emptyManager, Nat.add_comm]
  · intro m title description now task m' h
    cases hv : validateTask title description with
    | some e => rw [add_task_error m title description now e hv] at h; exact absurd h (by simp)
    | none =>
      rw [add_task_ok m title description now hv] at h
      injection h with h1
      injection h1 with ht hm
      subst ht
      subst hm
      exact ⟨rfl, rfl, rfl⟩

/-- Witness for C2: a concrete successful add from the empty state assigns
id 1 and moves the counter to 2. -/
theorem id_monotonicity_witness :
    (⟨1, ['a'], [], false, 0⟩ : Task).id = emptyManager.next_id ∧
    (⟨[⟨1, ['a'], [], false, 0⟩], 2, [([⟨1, ['a'], [], false, 0⟩], 2)]⟩ :
      TodoManager).next_id = emptyManager.next_id + 1 ∧
    (⟨[⟨1, ['a'], [], false, 0⟩], 2, [([⟨1, ['a'], [], false, 0⟩], 2)]⟩ :
      TodoManager).tasks = emptyManager.tasks ++ [⟨1, ['a'], [], false, 0⟩] :=
  id_monotonicity.2.1 emptyManager ['a'] [] 0 _ _ rfl

/-- Claim C3: record conversion is lossless — reconstructing a task from
its record yields a task with all fields equal, timestamp included. -/
theorem task_record_round_trip :
    ∀ t : Task, Task.from_dict (Task.to_dict t) = t :=
  fun _ => rfl

/-- Claim C4: delete and update on an id absent from the task sequence
return false and leave the whole manager state (hence `get_stats`)
unchanged, and hand nothing to the storage layer. -/
theorem absent_id_no_mutation :
    ∀ (m : TodoManager) (task_id : Nat) (title description : Option Str),
      (∀ t ∈ m.tasks, t.id ≠ task_id) →
      m.delete_task task_id = (false, m) ∧
      m.update_task task_id title description = (false, m) ∧
      ((m.delete_task task_id).2).get_stats = m.get_stats ∧
      ((m.update_task task_id title description).2).get_stats = m.get_stats ∧
      ((m.delete_task task_id).2).saves = m.saves ∧
      ((m.update_task task_id title description).2).saves = m.saves := by
  intro m task_id title description h
  have hf : findTask m.tasks task_id = none := findTask_eq_none h
  have hdel : m.delete_task task_id = (false, m) := by
    simp [TodoManager.delete_task, hf]
  have hupd : m.update_task task_id title description = (false, m) := by
    simp [TodoManager.update_task, hf]
  exact ⟨hdel, hupd, by rw [hdel], by rw [hupd], by rw [hdel], by rw [hupd]⟩

/-- Witness for C4: deleting or updating id 2 in a one-task manager that
only holds id 1 returns false and changes nothing. -/
theorem absent_id_no_mutation_witness :
    mgr1.delete_task 2 = (false, mgr1) ∧
    mgr1.update_task 2 none none = (false, mgr1) ∧
    ((mgr1.delete_task 2).2).get_stats = mgr1.get_stats ∧
    ((mgr1.update_task 2 none none).2).get_stats = mgr1.get_stats ∧
    ((mgr1.delete_task 2).2).saves = mgr1.saves ∧
    ((mgr1.update_task 2 none none).2).saves = mgr1.saves :=
  absent_id_no_mutation mgr1 2 none none (by decide)

/-- Claim C5: `load` never propagates a failure — it is a total function
of the observed file content: a missing file and an unparseable file both
yield the empty default state, and on a parsed file a missing counter
defaults to 1 and a missing task list to empty. -/
theorem load_resilience :
    JSONStorage.load .missing = ⟨[], 1⟩ ∧
    JSONStorage.load .corrupt = ⟨[], 1⟩ ∧
    (∀ tasks : Option (List TaskRecord),
      (JSONStorage.load (.parsed tasks none)).next_id = 1) ∧
    (∀ next_id : Option Nat,
      (JSONStorage.load (.parsed none next_id)).tasks = []) :=
  ⟨rfl, rfl, fun _ => rfl, fun _ => rfl⟩

/-- Claim C6: updating a present id returns true and replaces the task at
its position by one that preserves id, `created_at` and `completed` and
takes the new title resp. description exactly when the argument is
explicitly provided (`none` is the no-change sentinel, so `some []` — an
explicit empty string — does change the field); every other position and
the counter are unchanged. -/
theorem update_task_present :
    ∀ (m : TodoManager) (task_id : Nat) (title description : Option Str),
      (∃ t ∈ m.tasks, t.id = task_id) →
      (m.update_task task_id title description).1 = true ∧
      ((m.update_task task_id title description).2).next_id = m.next_id ∧
      ∃ (idx : Nat) (t : Task), m.tasks[idx]? = some t ∧ t.id = task_id ∧
        ((m.update_task task_id title description).2).tasks[idx]? =
          some (⟨t.id, title.getD t.title, description.getD t.description,
                 t.completed, t.created_at⟩ : Task) ∧
        ∀ j : Nat, j ≠ idx →
          ((m.update_task task_id title description).2).tasks[j]? = m.tasks[j]? := by
  intro m task_id title description h
  rcases firstById_spec h with ⟨idx, t, hfind, hget, hid, hrep, _, _⟩
  refine ⟨by simp [TodoManager.update_task, hfind],
          by simp [TodoManager.update_task, hfind], idx, t, hget, hid, ?_, ?_⟩
  · cases title <;> cases description <;>
      simpa [TodoManager.update_task, hfind] using (hrep _).1
  · intro j hj
    cases title <;> cases description <;>
      simpa [TodoManager.update_task, hfind] using (hrep _).2 j hj

/-- Witness for C6: updating the only task of a one-task manager with an
explicit new title and an explicit empty description. -/
theorem update_task_present_witness :
    (mgr1.update_task 1 (some ['b']) (some [])).1 = true ∧
    ((mgr1.update_task 1 (some ['b']) (some [])).2).next_id = mgr1.next_id ∧
    ∃ (idx : Nat) (t : Task), mgr1.tasks[idx]? = some t ∧ t.id = 1 ∧
      ((mgr1.update_task 1 (some ['b']) (some [])).2).tasks[idx]? =
        some (⟨t.id, (some ['b']).getD t.title, (some ([] : Str)).getD t.description,
               t.completed, t.created_at⟩ : Task) ∧
      ∀ j : Nat, j ≠ idx →
        ((mgr1.update_task 1 (some ['b']) (some [])).2).tasks[j]? = mgr1.tasks[j]? :=
  update_task_present mgr1 1 (some ['b']) (some []) (by decide)

/-- Claim C7: toggling a present id twice returns true both times and
restores the task sequence, in particular the original `completed` value
of the toggled task. -/
theorem toggle_twice_involutive :
    ∀ (m : TodoManager) (task_id : Nat), (∃ t ∈ m.tasks, t.id = task_id) →
      (m.toggle_complete task_id).1 = true ∧
      (((m.toggle_complete task_id).2).toggle_complete task_id).1 = true ∧
      ((((m.toggle_complete task_id).2).toggle_complete task_id).2).tasks = m.tasks := by
  intro m task_id h
  rcases firstById_spec h with ⟨idx, t, hfind, _, _, _, _, _⟩
  have hs1 : (findTask (toggleFirstById m.tasks task_id) task_id).isSome :=
    findTask_toggleFirstById_isSome (by simp [hfind])
  rcases Option.isSome_iff_exists.mp hs1 with ⟨u, hu⟩
  refine ⟨?_, ?_, ?_⟩ <;>
    simp [TodoManager.toggle_complete, hfind, hu, toggleFirstById_toggleFirstById]

/-- Witness for C7: toggling the only task of a one-task manager twice. -/
theorem toggle_twice_involutive_witness :
    (mgr1.toggle_complete 1).1 = true ∧
    (((mgr1.toggle_complete 1).2).toggle_complete 1).1 = true ∧
    ((((mgr1.toggle_complete 1).2).toggle_complete 1).2).tasks = mgr1.tasks :=
  toggle_twice_involutive mgr1 1 (by decide)

/-- Claim C8: `get_stats` reports the length of the task sequence as
`total`, the number of completed tasks as `completed`, and
`pending = total - completed`; being a pure function of the state it
mutates nothing and cannot fail, and the counts are consistent. -/
theorem get_stats_spec :
    ∀ m : TodoManager,
      (m.get_stats).total = m.tasks.length ∧
      (m.get_stats).completed = m.tasks.countP (fun t => t.completed) ∧
      (m.get_stats).pending = (m.get_stats).total - (m.get_stats).completed ∧
      (m.get_stats).completed ≤ (m.get_stats).total ∧
      (m.get_stats).pending + (m.get_stats).completed = (m.get_stats).total := by
  intro m
  have hle : m.tasks.countP (fun t => t.completed) ≤ m.tasks.length :=
    List.countP_le_length _
  exact ⟨rfl, rfl, rfl, hle, Nat.sub_add_cancel hle⟩

/-- Claim C9: a successful save first copies an existing target file to the
backup path and then overwrites the target, so the backup holds exactly the
target's content from immediately before that save; when no target file
exists, no backup is made and the backup path keeps its prior content. -/
theorem save_backup_spec :
    ∀ (fs : FS) (tasks : List Task) (next_id : Nat),
      (JSONStorage.save fs tasks next_id).1 = true ∧
      ((JSONStorage.save fs tasks next_id).2).target =
        some ⟨tasks.map Task.to_dict, next_id⟩ ∧
      (∀ c : StoreDoc, fs.target = some c →
        ((JSONStorage.save fs tasks next_id).2).backup = some c) ∧
      (fs.target = none →
        ((JSONStorage.save fs tasks next_id).2).backup = fs.backup) := by
  intro fs tasks next_id
  refine ⟨rfl, rfl, ?_, ?_⟩
  · intro c hc
    simp [JSONStorage.save, hc]
  · intro hc
    simp [JSONStorage.save, hc]

/-- Witness for C9: saving over an existing file moves its content to the
backup path. -/
theorem save_backup_spec_witness :
    ((JSONStorage.save ⟨some ⟨[], 1⟩, none⟩ [] 2).2).backup = some ⟨[], 1⟩ :=
  (save_backup_spec ⟨some ⟨[], 1⟩, none⟩ [] 2).2.2.1 ⟨[], 1⟩ rfl

/-- Claim C10: toggling a present id flips exactly the `completed` field of
the task with that id — its id, title, description and `created_at` are
kept — while every other position of the sequence, the order, and the
counter are unchanged. -/
theorem toggle_frame :
    ∀ (m : TodoManager) (task_id : Nat), (∃ t ∈ m.tasks, t.id = task_id) →
      ((m.toggle_complete task_id).2).next_id = m.next_id ∧
      ((m.toggle_complete task_id).2).tasks.length = m.tasks.length ∧
      ∃ (idx : Nat) (t : Task), m.tasks[idx]? = some t ∧ t.id = task_id ∧
        ((m.toggle_complete task_id).2).tasks[idx]? =
          some (⟨t.id, t.title, t.description, !t.completed, t.created_at⟩ : Task) ∧
        ∀ j : Nat, j ≠ idx →
          ((m.toggle_complete task_id).2).tasks[j]? = m.tasks[j]? := by
  intro m task_id h
  rcases firstById_spec h with ⟨idx, t, hfind, hget, hid, _, htog, htogf⟩
  have hlen : ∀ (l : List Task) (i : Nat), (toggleFirstById l i).length = l.length := by
    intro l i
    induction l with
    | nil => rfl
    | cons a rest ih =>
      by_cases ha : a.id = i
      · simp [toggleFirstById, ha]
      · simp [toggleFirstById, ha, ih]
  refine ⟨by simp [TodoManager.toggle_complete, hfind],
          by simp [TodoManager.toggle_complete, hfind, hlen],
          idx, t, hget, hid,
          by simpa [TodoManager.toggle_complete, hfind] using htog,
          fun j hj => by simpa [TodoManager.toggle_complete, hfind] using htogf j hj⟩

/-- Witness for C10: toggling the only task of a one-task manager changes
just its `completed` field. -/
theorem toggle_frame_witness :
    ((mgr1.toggle_complete 1).2).next_id = mgr1.next_id ∧
    ((mgr1.toggle_complete 1).2).tasks.length = mgr1.tasks.length ∧
    ∃ (idx : Nat) (t : Task), mgr1.tasks[idx]? = some t ∧ t.id = 1 ∧
      ((mgr1.toggle_complete 1).2).tasks[idx]? =
        some (⟨t.id, t.title, t.description, !t.completed, t.created_at⟩ : Task) ∧
      ∀ j : Nat, j ≠ idx →
        ((mgr1.toggle_complete 1).2).tasks[j]? = mgr1.tasks[j]? :=
  toggle_frame mgr1 1 (by decide)

end TodoApp
